import Mathlib

/-!
Verification of the per-target connection lifecycle manager of the
gnmi-gateway repository (`gateway/connections/state.go`), as a shallow
embedding in Lean 4.

The embedding models:
* the target descriptor (`targetpb.Target`) and `TargetState.Equal`;
* the rejection filter `rejectUpdate` over gNMI notifications;
* the update handler `handleUpdate`, with the cache sink
  (`cache.Target`) abstracted as a trace of emitted calls and the
  fallible `GnmiUpdate` result supplied as an input;
* the acquisition loop `connectWithLock`, with the semaphore/lock
  try-results and the concurrently-set `stopped` flag supplied as a
  per-iteration oracle, producing a trace of slot/lock/connect events;
* the mutations of the `TargetState` flags performed by `connect`,
  `disconnect`, `disconnected`, `reconnect` and `handleUpdate`.

Go `nil` pointers are modelled with `Option`; a nil-pointer dereference
is modelled as `Option.none` propagating out of the function (`Equal`
returns `Option Bool`, `none` standing for the runtime panic).
-/

namespace GnmiGateway

/-- One element of a gNMI path (`gnmipb.PathElem`): a name and a
string-to-string key map, modelled as an association list with unique
keys looked up first-match. -/
structure PathElem where
  name : String
  key : List (String × String)
  deriving Repr, DecidableEq

/-- Go map lookup `m[k]`: `some v` when present (`exists = true`),
`none` when absent. -/
def lookupKey : List (String × String) → String → Option String
  | [], _ => none
  | (a, b) :: rest, s => if a == s then some b else lookupKey rest s

/-- A gNMI path (`gnmipb.Path`): origin, structured elements, target
designator, and the deprecated string-element list. -/
structure Path where
  origin : String
  elem : List PathElem
  target : String
  element : List String
  deriving Repr, DecidableEq

/-- A single update inside a notification (`gnmipb.Update`): its path
(a nilable pointer) and an opaque payload standing for the value and
duplicates fields, which `state.go` never inspects. -/
structure Update where
  path : Option Path
  val : String
  deriving Repr, DecidableEq

/-- A gNMI notification (`gnmipb.Notification`). -/
structure Notification where
  timestamp : Int
  pfx : Option Path
  aliasName : String
  update : List Update
  delete : List Path
  atomic : Bool
  deriving Repr, DecidableEq

/-- Target credentials (`targetpb.Credentials`). -/
structure Credentials where
  username : String
  password : String
  deriving Repr, DecidableEq

/-- A target descriptor (`targetpb.Target`): ordered addresses and a
nilable credentials pointer. -/
structure Target where
  addresses : List String
  credentials : Option Credentials
  deriving Repr, DecidableEq

/-- The indexed loop of `TargetState.Equal` over `t.target.Addresses`,
comparing `other.Addresses[i] != addr`; it reports whether some
position differs.  `Equal` only runs it after checking the lengths are
equal, so the case of a shorter second list is unreachable there. -/
def addrMismatch : List String → List String → Bool
  | a :: as, b :: bs => a != b || addrMismatch as bs
  | _, _ => false

/-- `TargetState.Equal` (state.go:67-83).  The Go code dereferences
`Credentials` on both sides without a nil check (`t.target.Credentials.
Username`), so a missing credentials record on either side panics once
the address checks have passed; the panic is modelled as `none`. -/
def Equal (tt other : Target) : Option Bool :=
  if tt.addresses.length != other.addresses.length then some false
  else if addrMismatch tt.addresses other.addresses then some false
  else
    match tt.credentials, other.credentials with
    | some c, some oc =>
        if c.username != oc.username then some false
        else if c.password != oc.password then some false
        else some true
    | _, _ => none

/-- `update.GetPath().GetElem()`: nil path yields the empty element
list. -/
def pathElems (u : Update) : List PathElem :=
  match u.path with
  | none => []
  | some p => p.elem

/-- The per-update body of the `rejectUpdate` loop (state.go:214-232):
all checks are guarded by `len(path) >= 2`; each of the three if-blocks
either returns an error or falls through to the next. -/
def checkPath : List PathElem → Option String
  | e0 :: e1 :: _ =>
      if e0.name == "interfaces" && e1.name == "interface"
          && (lookupKey e1.key "name" == some "interface") then
        some "bug for Arista interface path"
      else if e0.name == "network-instances" && e1.name == "network-instance"
          && (lookupKey e1.key "name" == some "network-instance") then
        some "bug for Arista isis adjacency path"
      else if e0.name == "netconf-state" then
        some "bug for netconf-state path"
      else none
  | _ => none

/-- The loop of `rejectUpdate` over `notification.GetUpdate()`: the
first matching update returns its error. -/
def rejectUpdates : List Update → Option String
  | [] => none
  | u :: rest =>
      match checkPath (pathElems u) with
      | some e => some e
      | none => rejectUpdates rest

/-- `TargetState.rejectUpdate` (state.go:211-235): `some e` is the Go
`error` return, `none` is the nil return (update accepted). -/
def rejectUpdate (n : Notification) : Option String :=
  rejectUpdates n.update

/-- The mutable flags of a `TargetState` (state.go:49-65); the cache
sink is modelled separately as a trace of calls, and the gNMI client
handle only through the external `Close`. -/
structure TargetState where
  name : String
  target : Target
  connected : Bool
  connecting : Bool
  stopped : Bool
  deriving Repr, DecidableEq

/-- The `oneof` payload of a `gnmipb.SubscribeResponse`: an update
notification, a sync_response, the (deprecated) error variant, or an
unrecognized/nil variant (the `default` case of the switch). -/
inductive Response where
  | update (n : Notification)
  | syncResponse
  | errorResponse
  | unknown
  deriving Repr, DecidableEq

/-- An inbound `proto.Message`: either a `*gnmipb.SubscribeResponse`
or some other message type (the failed type assertion). -/
inductive Msg where
  | subResp (r : Response)
  | other
  deriving Repr, DecidableEq

/-- One call made on the target's cache sink (`cache.Target`):
`Connect`, `GnmiUpdate`, `Sync`, `Disconnect`, `Reset`. -/
inductive SinkCall where
  | connect
  | update (n : Notification)
  | sync
  | disconnect
  | reset
  deriving Repr, DecidableEq

/-- The in-place prefix defaulting of `handleUpdate` on an Update
response (state.go:186-191): a nil prefix is replaced by a fresh empty
path, and an empty target designator is replaced by the connection's
own name. -/
def defaultNotif (name : String) (n : Notification) : Notification :=
  let n1 :=
    match n.pfx with
    | none => { n with pfx := some ⟨"", [], "", []⟩ }
    | some _ => n
  match n1.pfx with
  | some p => if p.target == "" then { n1 with pfx := some { p with target := name } } else n1
  | none => n1

/-- Result of one `handleUpdate` call: the updated state, the sink
calls made during the call in order, and the Go `error` return
(`none` = nil). -/
structure HandleResult where
  state : TargetState
  calls : List SinkCall
  err : Option String
  deriving Repr, DecidableEq

/-- `TargetState.handleUpdate` (state.go:172-209).  `cacheErr` is the
result the external `targetCache.GnmiUpdate` returns if it is called
(`none` = success).  Note the connected check runs before the message
is classified, so any message flips `connected` on. -/
def handleUpdate (t : TargetState) (cacheErr : Option String) (msg : Msg) : HandleResult :=
  let pre : List SinkCall := if !t.connected then [SinkCall.connect] else []
  let t1 : TargetState := if !t.connected then { t with connected := true } else t
  match msg with
  | Msg.other => ⟨t1, pre, some "failed to type assert message"⟩
  | Msg.subResp r =>
    match r with
    | Response.update n =>
        let n' := defaultNotif t.name n
        match rejectUpdate n' with
        | some _ => ⟨t1, pre, none⟩
        | none =>
            match cacheErr with
            | some e => ⟨t1, pre ++ [SinkCall.update n'], some ("targetCache cache update error: " ++ e)⟩
            | none => ⟨t1, pre ++ [SinkCall.update n'], none⟩
    | Response.syncResponse => ⟨t1, pre ++ [SinkCall.sync], none⟩
    | Response.errorResponse => ⟨t1, pre, some "error in response"⟩
    | Response.unknown => ⟨t1, pre, some "unknown response"⟩

/-- `TargetState.disconnected` (state.go:158-162), the gNMI client's
disconnect callback: clears `connected` and calls `Disconnect` then
`Reset` on the cache sink. -/
def disconnected (t : TargetState) : TargetState × List SinkCall :=
  ({ t with connected := false }, [SinkCall.disconnect, SinkCall.reset])

/-- `TargetState.disconnect` (state.go:152-155): sets `stopped` and
closes the client (the close itself is external, handled by the
transport). -/
def disconnect (t : TargetState) : TargetState :=
  { t with stopped := true }

/-- The state mutation of `TargetState.connect` (state.go:85-122): the
only field it writes is `connecting`; everything after that is the
external subscription. -/
def connectMut (t : TargetState) : TargetState :=
  { t with connecting := true }

/-- `TargetState.reconnect` (state.go:164-166) only calls the external
`client.Close`; it writes no field of the state. -/
def reconnect (t : TargetState) : TargetState :=
  t

/-- The operations of a `TargetState` that can run after creation,
abstracted to their effect on the modelled state fields. -/
inductive Op where
  | connect
  | disconnect
  | disconnected
  | reconnect
  | handleMsg (cacheErr : Option String) (m : Msg)
  deriving Repr, DecidableEq

/-- The state transition of each operation. -/
def applyOp (t : TargetState) : Op → TargetState
  | Op.connect => connectMut t
  | Op.disconnect => disconnect t
  | Op.disconnected => (disconnected t).1
  | Op.reconnect => reconnect t
  | Op.handleMsg ce m => (handleUpdate t ce m).state

/-! ### Sink-call traces

For the temporal claims, the externally visible history of one
`TargetState` is the sequence of inbound messages (each paired with the
`GnmiUpdate` result the cache would give) and transport-disconnect
callbacks, and the trace of sink calls these produce. -/

/-- One external event on a `TargetState`: an inbound message delivered
to `handleUpdate`, or the client's disconnect callback. -/
inductive Ev where
  | msg (cacheErr : Option String) (m : Msg)
  | disc
  deriving Repr, DecidableEq

/-- The sink calls emitted by one event, and the state after it. -/
def evStep (t : TargetState) : Ev → TargetState × List SinkCall
  | Ev.msg ce m => let r := handleUpdate t ce m; (r.state, r.calls)
  | Ev.disc => disconnected t

/-- The full sink-call trace produced by a sequence of events. -/
def sinkTrace (t : TargetState) : List Ev → List SinkCall
  | [] => []
  | e :: rest =>
      let (t', calls) := evStep t e
      calls ++ sinkTrace t' rest

/-! ### The acquisition loop `connectWithLock`

The loop's interactions with its environment are modelled as a
per-iteration oracle: the value of `t.stopped` read at the loop head
(it is written concurrently by `disconnect`), and the results
`connectionSlot.TryAcquire(1)` and `lock.Try()` would return if called
this iteration.  The loop produces a trace of slot/lock/connect
events.  A finite oracle list bounds how many iterations we observe;
if no oracle entry reports `stopped`, the loop is still running
(`exited = false`) and the release phase has not occurred. -/

/-- The environment of one iteration of the `connectWithLock` loop. -/
structure IterIn where
  stopped : Bool
  slotTry : Bool
  lockTry : Bool
  deriving Repr, DecidableEq

/-- Observable actions of `connectWithLock`: try-acquire calls with
their results, the call to `connect()`, and the final release calls. -/
inductive LockEv where
  | trySlot (r : Bool)
  | tryLock (r : Bool)
  | connectCall
  | releaseSlot
  | unlockLock
  deriving Repr, DecidableEq

/-- Result of running the `connectWithLock` loop body (state.go:130-142)
against a finite oracle: the event trace, the final values of
`connectionSlotAcquired` and `connectionLockAcquired`, and whether the
loop exited (saw `stopped` true at the loop head). -/
structure LoopOut where
  events : List LockEv
  slotAcq : Bool
  lockAcq : Bool
  exited : Bool
  deriving Repr, DecidableEq

/-- The `for !t.stopped` loop of `connectWithLock`, one oracle entry
per iteration. -/
def loopRun : List IterIn → Bool → Bool → LoopOut
  | [], sa, la => ⟨[], sa, la, false⟩
  | it :: rest, sa, la =>
      if it.stopped then ⟨[], sa, la, true⟩
      else
        let (ev1, sa') := if !sa then ([LockEv.trySlot it.slotTry], it.slotTry) else ([], sa)
        let (ev2, la') :=
          if sa' then
            if !la then ([LockEv.tryLock it.lockTry], it.lockTry) else ([], la)
          else ([], la)
        let ev3 := if sa' && la' then [LockEv.connectCall] else []
        let out := loopRun rest sa' la'
        ⟨ev1 ++ ev2 ++ ev3 ++ out.events, out.slotAcq, out.lockAcq, out.exited⟩

/-- `TargetState.connectWithLock` (state.go:127-149): runs the loop
from both flags false and, once the loop has exited, releases the slot
and unlocks the lock exactly when each was acquired.  Returns the
event trace and whether the loop exited. -/
def connectWithLock (ins : List IterIn) : List LockEv × Bool :=
  let out := loopRun ins false false
  if out.exited then
    (out.events ++ (if out.slotAcq then [LockEv.releaseSlot] else [])
      ++ (if out.lockAcq then [LockEv.unlockLock] else []), true)
  else (out.events, false)

/-! ### Trace monitors

Executable monitors expressing the claimed temporal properties; each
is a pure function of the emitted trace, independent of the model's
internal state. -/

/-- Monitor for the slot/lock discipline: replays the trace tracking
which resources are held (from the recorded try results), and demands
that `connect()` happens only while both are held, and that release /
unlock happen only while the corresponding resource is held.  Returns
the final held flags, or `none` on a violation. -/
def runMon : Bool → Bool → List LockEv → Option (Bool × Bool)
  | sa, la, [] => some (sa, la)
  | _, la, LockEv.trySlot r :: rest => runMon r la rest
  | sa, _, LockEv.tryLock r :: rest => runMon sa r rest
  | sa, la, LockEv.connectCall :: rest =>
      if sa && la then runMon sa la rest else none
  | sa, la, LockEv.releaseSlot :: rest =>
      if sa then runMon sa la rest else none
  | sa, la, LockEv.unlockLock :: rest =>
      if la then runMon sa la rest else none

/-- Does a sink call deliver data or a sync to the cache? -/
def isUpdateOrSync : SinkCall → Bool
  | SinkCall.update _ => true
  | SinkCall.sync => true
  | _ => false

/-- Monitor: no `update`/`sync` call occurs before the first `connect`
call of the trace. -/
def noUpdateBeforeConnect : List SinkCall → Bool
  | [] => true
  | SinkCall.connect :: _ => true
  | c :: rest => !isUpdateOrSync c && noUpdateBeforeConnect rest

mutual
/-- Monitor: no two `connect` calls without an intervening
`disconnect` (scanning outside a connect region). -/
def noDoubleConnect : List SinkCall → Bool
  | [] => true
  | SinkCall.connect :: rest => afterConnect rest
  | _ :: rest => noDoubleConnect rest

/-- Monitor continuation inside a connect region: a further `connect`
before a `disconnect` is a violation. -/
def afterConnect : List SinkCall → Bool
  | [] => true
  | SinkCall.connect :: _ => false
  | SinkCall.disconnect :: rest => noDoubleConnect rest
  | _ :: rest => afterConnect rest
end

/-- A notification wrapping a single update with the given path
elements: the minimal context in which the rejection filter judges one
path. -/
def singlePathNotif (es : List PathElem) : Notification :=
  ⟨0, none, "", [⟨some ⟨"", es, "", []⟩, "v"⟩], [], false⟩

/-- The target designator of a notification's addressing prefix, in Go
getter semantics (`GetPrefix().GetTarget()`): empty when the prefix
pointer is nil. -/
def prefixTarget (n : Notification) : String :=
  match n.pfx with
  | none => ""
  | some p => p.target

/-! ## Helper lemmas -/

theorem addrMismatch_self : ∀ as : List String, addrMismatch as as = false := by
  intro as
  induction as with
  | nil => rfl
  | cons a rest ih => simp [addrMismatch, ih]

theorem eq_of_addrMismatch_false : ∀ as bs : List String,
    as.length = bs.length → addrMismatch as bs = false → as = bs := by
  intro as
  induction as with
  | nil =>
    intro bs h _
    cases bs with
    | nil => rfl
    | cons b bs => simp at h
  | cons a rest ih =>
    intro bs h hm
    cases bs with
    | nil => simp at h
    | cons b bs =>
      simp only [addrMismatch, Bool.or_eq_false_iff, bne_eq_false_iff_eq] at hm
      simp only [List.length_cons, Nat.succ_inj] at h
      exact hm.1 ▸ congrArg (List.cons a) (ih bs h hm.2) ▸ by rw [hm.1]

theorem rejectUpdates_eq_none_iff : ∀ l : List Update,
    rejectUpdates l = none ↔ ∀ u ∈ l, checkPath (pathElems u) = none := by
  intro l
  induction l with
  | nil => simp [rejectUpdates]
  | cons u rest ih =>
    simp only [rejectUpdates]
    cases h : checkPath (pathElems u) with
    | some e => simp [h]
    | none => simp [h, ih]

/-- Prefix defaulting never touches the update list. -/
theorem defaultNotif_update (name : String) (n : Notification) :
    (defaultNotif name n).update = n.update := by
  unfold defaultNotif
  cases h : n.pfx with
  | none => simp
  | some p =>
    simp only [h]
    by_cases ht : p.target == ""
    · simp [ht]
    · simp [ht]

/-- Rejection is decided on the update list only, so defaulting the
prefix does not change the filter's verdict. -/
theorem rejectUpdate_defaultNotif (name : String) (n : Notification) :
    rejectUpdate (defaultNotif name n) = rejectUpdate n := by
  unfold rejectUpdate
  rw [defaultNotif_update]

/-! ## C3: Equal -/

/-- C3 (counterexample): with identical addresses, credentials present
on the left and absent on the right, `Equal` dereferences the nil
credentials pointer (modelled as `none`, a runtime panic) instead of
returning `false` as the claim states. -/
theorem equal_nil_credentials_panics :
    Equal ⟨["10.0.0.1:6030"], some ⟨"u", "p"⟩⟩ ⟨["10.0.0.1:6030"], none⟩ = none ∧
    Equal ⟨["10.0.0.1:6030"], some ⟨"u", "p"⟩⟩ ⟨["10.0.0.1:6030"], none⟩ ≠ some false := by
  constructor
  · rfl
  · decide

/-- C3 (amended): when both sides carry credentials, `Equal` returns
true iff the address sequences are identical elementwise and username
and password match; any address mismatch returns false before the
credentials are touched; but when the addresses pass and either side's
credentials are absent, `Equal` faults (nil dereference) instead of
returning false. -/
theorem equal_spec (tt other : Target) :
    (∀ c oc, tt.credentials = some c → other.credentials = some oc →
      (Equal tt other = some true ↔
        tt.addresses = other.addresses ∧ c.username = oc.username ∧ c.password = oc.password)) ∧
    (tt.addresses ≠ other.addresses → Equal tt other = some false) ∧
    (tt.addresses = other.addresses →
      tt.credentials = none ∨ other.credentials = none → Equal tt other = none) := by
  refine ⟨?_, ?_, ?_⟩
  · intro c oc hc hoc
    constructor
    · intro h
      unfold Equal at h
      by_cases hl : tt.addresses.length = other.addresses.length
      · by_cases hm : addrMismatch tt.addresses other.addresses
        · simp [hl, hm] at h
        · have heq := eq_of_addrMismatch_false _ _ hl (by simpa using hm)
          refine ⟨heq, ?_⟩
          simp only [hl, bne_self_eq_false, Bool.false_eq_true, if_false,
            Bool.not_eq_true] at h
          rw [if_neg (by simp [hm]), hc, hoc] at h
          by_cases hu : c.username = oc.username
          · by_cases hp : c.password = oc.password
            · exact ⟨hu, hp⟩
            · simp [hu, hp] at h
          · simp [hu] at h
      · simp [Equal, hl] at h
    · rintro ⟨haddr, hu, hp⟩
      unfold Equal
      rw [haddr]
      simp [addrMismatch_self, hc, hoc, hu, hp]
  · intro hne
    unfold Equal
    by_cases hl : tt.addresses.length = other.addresses.length
    · by_cases hm : addrMismatch tt.addresses other.addresses
      · simp [hl, hm]
      · exact absurd (eq_of_addrMismatch_false _ _ hl (by simpa using hm)) hne
    · simp [hl]
  · intro haddr hnil
    unfold Equal
    rw [haddr]
    simp only [bne_self_eq_false, Bool.false_eq_true, if_false, addrMismatch_self]
    rcases hnil with h | h
    · rw [h]
    · rw [h]
      cases tt.credentials <;> rfl

/-- Witness for `equal_spec` at concrete descriptors. -/
theorem equal_spec_witness :
    Equal ⟨["a", "b"], some ⟨"admin", "pw"⟩⟩ ⟨["a", "b"], some ⟨"admin", "pw"⟩⟩ = some true :=
  ((equal_spec ⟨["a", "b"], some ⟨"admin", "pw"⟩⟩ ⟨["a", "b"], some ⟨"admin", "pw"⟩⟩).1
    ⟨"admin", "pw"⟩ ⟨"admin", "pw"⟩ rfl rfl).mpr ⟨rfl, rfl, rfl⟩

/-! ## C4 and C5: the rejection filter -/

/-- C4: the filter rejects the self-referential Arista interface path
and network-instance path, accepts a well-formed interface path keyed
`eth0`, and rejects any `netconf-state`-rooted path that has at least
two elements. -/
theorem rejectUpdate_concrete_cases :
    rejectUpdate (singlePathNotif [⟨"interfaces", []⟩, ⟨"interface", [("name", "interface")]⟩]) ≠ none ∧
    rejectUpdate (singlePathNotif
      [⟨"network-instances", []⟩, ⟨"network-instance", [("name", "network-instance")]⟩]) ≠ none ∧
    rejectUpdate (singlePathNotif [⟨"interfaces", []⟩, ⟨"interface", [("name", "eth0")]⟩]) = none ∧
    ∀ (k : List (String × String)) (e2 : PathElem) (rest : List PathElem),
      rejectUpdate (singlePathNotif (⟨"netconf-state", k⟩ :: e2 :: rest)) ≠ none := by
  refine ⟨by decide, by decide, by decide, ?_⟩
  intro k e2 rest
  simp only [rejectUpdate, singlePathNotif, rejectUpdates, pathElems, checkPath]
  by_cases h1 : e2.name == "interface"
  · simp [h1]
  · simp [h1]

/-- C5 (counterexample): a path consisting of the single element
`netconf-state` is NOT rejected — every check in `rejectUpdate` sits
under the `len(path) >= 2` guard, so the claim's "including none"
case fails. -/
theorem netconf_single_element_accepted :
    rejectUpdate (singlePathNotif [⟨"netconf-state", []⟩]) = none := by decide

/-- C5 (amended): an update path whose first element is
`netconf-state` is rejected whenever the path has at least one further
element; the one-element path `[netconf-state]` is accepted because
all checks are guarded by `len(path) >= 2`. -/
theorem netconf_rejection_needs_two_elements :
    (∀ (k : List (String × String)) (e2 : PathElem) (rest : List PathElem),
      rejectUpdate (singlePathNotif (⟨"netconf-state", k⟩ :: e2 :: rest)) ≠ none) ∧
    ∀ k : List (String × String),
      rejectUpdate (singlePathNotif [⟨"netconf-state", k⟩]) = none := by
  constructor
  · intro k e2 rest
    simp only [rejectUpdate, singlePathNotif, rejectUpdates, pathElems, checkPath]
    by_cases h1 : e2.name == "interface"
    · simp [h1]
    · simp [h1]
  · intro k
    simp [rejectUpdate, singlePathNotif, rejectUpdates, pathElems, checkPath]

/-! ## Shape of a `handleUpdate` call -/

/-- The state after `handleUpdate` only flips `connected` on, and the
call list is the conditional leading `Connect` followed by a body that
contains only `Sync` or `GnmiUpdate` calls. -/
theorem handleUpdate_shape (t : TargetState) (ce : Option String) (m : Msg) :
    (handleUpdate t ce m).state = (if t.connected then t else { t with connected := true }) ∧
    ∃ body, (handleUpdate t ce m).calls = (if t.connected then [] else [SinkCall.connect]) ++ body ∧
      ∀ c ∈ body, c = SinkCall.sync ∨ ∃ nn, c = SinkCall.update nn := by
  unfold handleUpdate
  cases m with
  | other =>
    refine ⟨by cases t.connected <;> rfl, [], by cases t.connected <;> simp, by simp⟩
  | subResp r =>
    cases r with
    | update n =>
      cases h : rejectUpdate (defaultNotif t.name n) with
      | some e =>
        refine ⟨?_, [], ?_, by simp⟩ <;> cases t.connected <;> simp [h]
      | none =>
        cases ce with
        | some e =>
          refine ⟨?_, [SinkCall.update (defaultNotif t.name n)], ?_, by simp⟩ <;>
            cases t.connected <;> simp [h]
        | none =>
          refine ⟨?_, [SinkCall.update (defaultNotif t.name n)], ?_, by simp⟩ <;>
            cases t.connected <;> simp [h]
    | syncResponse =>
      refine ⟨?_, [SinkCall.sync], ?_, by simp⟩ <;> cases t.connected <;> simp
    | errorResponse =>
      refine ⟨by cases t.connected <;> rfl, [], by cases t.connected <;> simp, by simp⟩
    | unknown =>
      refine ⟨by cases t.connected <;> rfl, [], by cases t.connected <;> simp, by simp⟩

/-- `handleUpdate` never writes `stopped`. -/
theorem handleUpdate_stopped (t : TargetState) (ce : Option String) (m : Msg) :
    (handleUpdate t ce m).state.stopped = t.stopped := by
  rw [(handleUpdate_shape t ce m).1]
  cases t.connected <;> simp

/-- `handleUpdate` always leaves `connected` set. -/
theorem handleUpdate_connected (t : TargetState) (ce : Option String) (m : Msg) :
    (handleUpdate t ce m).state.connected = true := by
  rw [(handleUpdate_shape t ce m).1]
  cases h : t.connected <;> simp [h]

/-! ## C6: rejected notifications are dropped silently and whole -/

/-- C6: when the filter matches any update of a notification,
`handleUpdate` returns nil (no error) and makes no `GnmiUpdate` call at
all for that notification — the well-formed sibling updates are dropped
with it. -/
theorem handleUpdate_rejected_silent (t : TargetState) (ce : Option String) (n : Notification)
    (h : ∃ u ∈ n.update, checkPath (pathElems u) ≠ none) :
    (handleUpdate t ce (Msg.subResp (Response.update n))).err = none ∧
    ∀ m, SinkCall.update m ∉ (handleUpdate t ce (Msg.subResp (Response.update n))).calls := by
  have hrej : rejectUpdate (defaultNotif t.name n) ≠ none := by
    rw [rejectUpdate_defaultNotif]
    unfold rejectUpdate
    rw [Ne, rejectUpdates_eq_none_iff]
    rcases h with ⟨u, hu, hcp⟩
    exact fun hall => hcp (hall u hu)
  cases hr : rejectUpdate (defaultNotif t.name n) with
  | none => exact absurd hr hrej
  | some e =>
    constructor
    · simp [handleUpdate, hr]
    · intro m
      simp only [handleUpdate, hr]
      cases t.connected <;> simp

/-- Witness for `handleUpdate_rejected_silent`: a notification holding
one malformed `netconf-state` update next to a well-formed sibling. -/
theorem handleUpdate_rejected_silent_witness :
    (handleUpdate ⟨"t1", ⟨[], none⟩, false, false, false⟩ none
      (Msg.subResp (Response.update
        ⟨0, none, "",
          [⟨some ⟨"", [⟨"netconf-state", []⟩, ⟨"capabilities", []⟩], "", []⟩, "v"⟩,
           ⟨some ⟨"", [⟨"interfaces", []⟩, ⟨"interface", [("name", "eth0")]⟩], "", []⟩, "v"⟩],
          [], false⟩))).err = none :=
  (handleUpdate_rejected_silent ⟨"t1", ⟨[], none⟩, false, false, false⟩ none
    ⟨0, none, "",
      [⟨some ⟨"", [⟨"netconf-state", []⟩, ⟨"capabilities", []⟩], "", []⟩, "v"⟩,
       ⟨some ⟨"", [⟨"interfaces", []⟩, ⟨"interface", [("name", "eth0")]⟩], "", []⟩, "v"⟩],
      [], false⟩ (by decide)).1

/-! ## C7: prefix defaulting of forwarded updates -/

/-- When the inbound designator is empty (or the prefix missing), the
defaulted notification carries the connection's own name. -/
theorem prefixTarget_defaultNotif (name : String) (n : Notification)
    (h : prefixTarget n = "") : prefixTarget (defaultNotif name n) = name := by
  unfold prefixTarget defaultNotif
  cases hp : n.pfx with
  | none => simp [hp]
  | some p =>
    have ht : p.target = "" := by simpa [prefixTarget, hp] using h
    simp [hp, ht]

/-- When the inbound designator is non-empty, defaulting is the
identity. -/
theorem defaultNotif_id (name : String) (n : Notification)
    (h : prefixTarget n ≠ "") : defaultNotif name n = n := by
  unfold defaultNotif
  cases hp : n.pfx with
  | none => exact absurd (by simp [prefixTarget, hp]) h
  | some p =>
    have ht : ¬ p.target = "" := by simpa [prefixTarget, hp] using h
    simp [hp, ht]

/-- C7: an accepted data update whose prefix lacks a target designator
is forwarded to the sink with the designator set to the connection's
own name; one that already has a designator is forwarded unmodified. -/
theorem handleUpdate_prefix_defaulting (t : TargetState) (ce : Option String) (n : Notification)
    (h : rejectUpdate (defaultNotif t.name n) = none) :
    (prefixTarget n = "" →
      SinkCall.update (defaultNotif t.name n)
          ∈ (handleUpdate t ce (Msg.subResp (Response.update n))).calls ∧
        prefixTarget (defaultNotif t.name n) = t.name) ∧
    (prefixTarget n ≠ "" →
      SinkCall.update n ∈ (handleUpdate t ce (Msg.subResp (Response.update n))).calls) := by
  have hmem : SinkCall.update (defaultNotif t.name n)
      ∈ (handleUpdate t ce (Msg.subResp (Response.update n))).calls := by
    simp only [handleUpdate, h]
    cases ce <;> cases t.connected <;> simp
  constructor
  · intro hpt
    exact ⟨hmem, prefixTarget_defaultNotif t.name n hpt⟩
  · intro hpt
    rw [defaultNotif_id t.name n hpt] at hmem
    exact hmem

/-- Witness for `handleUpdate_prefix_defaulting` on a prefixless
notification. -/
theorem handleUpdate_prefix_defaulting_witness :
    prefixTarget (defaultNotif "t1" ⟨0, none, "", [⟨some ⟨"", [⟨"a", []⟩], "", []⟩, "v"⟩], [], false⟩)
      = "t1" :=
  ((handleUpdate_prefix_defaulting ⟨"t1", ⟨[], none⟩, false, false, false⟩ none
    ⟨0, none, "", [⟨some ⟨"", [⟨"a", []⟩], "", []⟩, "v"⟩], [], false⟩ (by decide)).1 rfl).2

/-! ## C10: the frame of the in-place prefix mutation -/

/-- C10: prefix defaulting changes only the prefix field — a nil
prefix becomes a fresh path holding just the connection name, an empty
designator is overwritten inside the existing prefix, a non-empty one
leaves the notification untouched — and the notification the sink's
`GnmiUpdate` receives is exactly the defaulted one. -/
theorem handleUpdate_frame (t : TargetState) (ce : Option String) (n : Notification) :
    (defaultNotif t.name n).timestamp = n.timestamp ∧
    (defaultNotif t.name n).update = n.update ∧
    (defaultNotif t.name n).delete = n.delete ∧
    (defaultNotif t.name n).aliasName = n.aliasName ∧
    (defaultNotif t.name n).atomic = n.atomic ∧
    (n.pfx = none → (defaultNotif t.name n).pfx = some ⟨"", [], t.name, []⟩) ∧
    (∀ p, n.pfx = some p → p.target = "" →
      (defaultNotif t.name n).pfx = some { p with target := t.name }) ∧
    (∀ p, n.pfx = some p → p.target ≠ "" → defaultNotif t.name n = n) ∧
    (∀ m, SinkCall.update m ∈ (handleUpdate t ce (Msg.subResp (Response.update n))).calls →
      m = defaultNotif t.name n) ∧
    (rejectUpdate (defaultNotif t.name n) = none →
      SinkCall.update (defaultNotif t.name n)
        ∈ (handleUpdate t ce (Msg.subResp (Response.update n))).calls) := by
  refine ⟨?_, defaultNotif_update t.name n, ?_, ?_, ?_, ?_, ?_, ?_, ?_, ?_⟩
  · unfold defaultNotif
    cases hp : n.pfx with
    | none => simp [hp]
    | some p => by_cases ht : p.target = "" <;> simp [hp, ht]
  · unfold defaultNotif
    cases hp : n.pfx with
    | none => simp [hp]
    | some p => by_cases ht : p.target = "" <;> simp [hp, ht]
  · unfold defaultNotif
    cases hp : n.pfx with
    | none => simp [hp]
    | some p => by_cases ht : p.target = "" <;> simp [hp, ht]
  · unfold defaultNotif
    cases hp : n.pfx with
    | none => simp [hp]
    | some p => by_cases ht : p.target = "" <;> simp [hp, ht]
  · intro hp
    unfold defaultNotif
    simp [hp]
  · intro p hp ht
    unfold defaultNotif
    simp [hp, ht]
  · intro p hp ht
    unfold defaultNotif
    simp [hp, ht]
  · intro m
    simp only [handleUpdate]
    cases hr : rejectUpdate (defaultNotif t.name n) with
    | some e => cases t.connected <;> simp
    | none => cases ce <;> cases t.connected <;> simp
  · intro h
    simp only [handleUpdate, h]
    cases ce <;> cases t.connected <;> simp

/-- Witness for `handleUpdate_frame`: the nil-prefix branch at a
concrete notification. -/
theorem handleUpdate_frame_witness :
    (defaultNotif "t1" ⟨7, none, "al", [⟨some ⟨"", [⟨"a", []⟩], "", []⟩, "v"⟩], [], true⟩).pfx
      = some ⟨"", [], "t1", []⟩ :=
  (handleUpdate_frame ⟨"t1", ⟨[], none⟩, false, false, false⟩ none
    ⟨7, none, "al", [⟨some ⟨"", [⟨"a", []⟩], "", []⟩, "v"⟩], [], true⟩).2.2.2.2.2.1 rfl

/-! ## C9: when `connected` becomes true -/

/-- C9 (counterexample): a sync message received while `connected` is
false sets `connected` to true — the flag does not wait for a data
update as the claim states. -/
theorem connected_set_by_sync :
    (handleUpdate ⟨"t1", ⟨[], none⟩, false, false, false⟩ none
      (Msg.subResp Response.syncResponse)).state.connected = true := by decide

/-- C9 (amended): `handleUpdate` marks the target connected on receipt
of any inbound message whatsoever — data update, sync, error,
unrecognized variant, or a message that is not a SubscribeResponse —
emitting the sink `Connect` call first when `connected` was false. -/
theorem connected_on_any_message (t : TargetState) (ce : Option String) (m : Msg) :
    (handleUpdate t ce m).state.connected = true ∧
    (t.connected = false → (handleUpdate t ce m).calls.head? = some SinkCall.connect) := by
  refine ⟨handleUpdate_connected t ce m, ?_⟩
  intro hc
  rcases (handleUpdate_shape t ce m).2 with ⟨body, hcalls, -⟩
  rw [hcalls, hc]
  simp

/-- Witness for `connected_on_any_message` on a non-SubscribeResponse
message. -/
theorem connected_on_any_message_witness :
    (handleUpdate ⟨"t1", ⟨[], none⟩, false, false, false⟩ none Msg.other).calls.head?
      = some SinkCall.connect :=
  (connected_on_any_message ⟨"t1", ⟨[], none⟩, false, false, false⟩ none Msg.other).2 rfl

/-! ## C8: disconnect idempotence and monotonicity of `stopped` -/

/-- C8: `disconnect` always leaves `stopped` true (calling it on an
already-stopped instance is harmless), and no modelled operation ever
resets `stopped` to false. -/
theorem stopped_monotonic (t : TargetState) (op : Op) :
    (disconnect t).stopped = true ∧
    (t.stopped = true → (applyOp t op).stopped = true) := by
  refine ⟨rfl, ?_⟩
  intro h
  cases op with
  | connect => simpa [applyOp, connectMut] using h
  | disconnect => rfl
  | disconnected => simpa [applyOp, disconnected] using h
  | reconnect => simpa [applyOp, reconnect] using h
  | handleMsg ce m => simpa [applyOp, handleUpdate_stopped] using h

/-- Witness for `stopped_monotonic`: a second `disconnect` on a
stopped instance keeps `stopped` true. -/
theorem stopped_monotonic_witness :
    (applyOp ⟨"t1", ⟨[], none⟩, false, false, true⟩ Op.disconnect).stopped = true :=
  (stopped_monotonic ⟨"t1", ⟨[], none⟩, false, false, true⟩ Op.disconnect).2 rfl

/-! ## C2: the connect / update / disconnect discipline of the sink -/

/-- Sink calls that are neither `connect` nor `disconnect` pass through
the `afterConnect` monitor unchanged. -/
theorem afterConnect_append_plain : ∀ body l : List SinkCall,
    (∀ c ∈ body, c = SinkCall.sync ∨ ∃ nn, c = SinkCall.update nn) →
    afterConnect (body ++ l) = afterConnect l := by
  intro body
  induction body with
  | nil => intro l _; rfl
  | cons c cs ih =>
    intro l hall
    have hrest := ih l (fun d hd => hall d (List.mem_cons_of_mem c hd))
    rcases hall c (List.mem_cons_self c cs) with h | ⟨nn, h⟩ <;> subst h <;>
      simpa [afterConnect] using hrest

/-- No inbound message delivers data or a sync to the sink before the
connect call: from a not-yet-connected state the very first sink call
of any event is `connect` (or a disconnect/reset pair). -/
theorem noUpdateBeforeConnect_trace : ∀ (evs : List Ev) (t : TargetState),
    t.connected = false → noUpdateBeforeConnect (sinkTrace t evs) = true := by
  intro evs
  induction evs with
  | nil => intro t _; rfl
  | cons e rest ih =>
    intro t h
    cases e with
    | msg ce m =>
      rcases (handleUpdate_shape t ce m).2 with ⟨body, hcalls, -⟩
      simp only [sinkTrace, evStep]
      rw [hcalls, h]
      simp [noUpdateBeforeConnect]
    | disc =>
      simp only [sinkTrace, evStep, disconnected]
      simp only [List.cons_append, List.nil_append, noUpdateBeforeConnect, isUpdateOrSync,
        Bool.not_false, Bool.true_and]
      exact ih _ rfl

/-- The connect/disconnect alternation invariant, tracked jointly with
the `connected` flag. -/
theorem doubleConnect_trace : ∀ (evs : List Ev) (t : TargetState),
    (t.connected = false → noDoubleConnect (sinkTrace t evs) = true) ∧
    (t.connected = true → afterConnect (sinkTrace t evs) = true) := by
  intro evs
  induction evs with
  | nil => intro t; exact ⟨fun _ => rfl, fun _ => rfl⟩
  | cons e rest ih =>
    intro t
    constructor
    · intro h
      cases e with
      | msg ce m =>
        rcases (handleUpdate_shape t ce m).2 with ⟨body, hcalls, hbody⟩
        have hconn : (handleUpdate t ce m).state.connected = true := handleUpdate_connected t ce m
        have happ := afterConnect_append_plain body (sinkTrace (handleUpdate t ce m).state rest) hbody
        have htail := (ih ((handleUpdate t ce m).state)).2 hconn
        simp only [sinkTrace, evStep]
        rw [hcalls, h]
        simp [noDoubleConnect, happ, htail]
      | disc =>
        have htail := (ih { t with connected := false }).1 rfl
        simp only [sinkTrace, evStep, disconnected]
        simp [noDoubleConnect, htail]
    · intro h
      cases e with
      | msg ce m =>
        rcases (handleUpdate_shape t ce m).2 with ⟨body, hcalls, hbody⟩
        have hconn : (handleUpdate t ce m).state.connected = true := handleUpdate_connected t ce m
        have happ := afterConnect_append_plain body (sinkTrace (handleUpdate t ce m).state rest) hbody
        have htail := (ih ((handleUpdate t ce m).state)).2 hconn
        simp only [sinkTrace, evStep]
        rw [hcalls, h]
        simp [happ, htail]
      | disc =>
        have htail := (ih { t with connected := false }).1 rfl
        simp only [sinkTrace, evStep, disconnected]
        simp [afterConnect, noDoubleConnect, htail]

/-- C2: over every sequence of inbound messages and disconnect
callbacks starting from a freshly created `TargetState`, the sink
trace never shows an `update`/`sync` call before the first `connect`,
and never two `connect` calls without an intervening `disconnect`. -/
theorem sink_call_discipline (name : String) (tgt : Target) (cing stp : Bool) (evs : List Ev) :
    noUpdateBeforeConnect (sinkTrace ⟨name, tgt, false, cing, stp⟩ evs) = true ∧
    noDoubleConnect (sinkTrace ⟨name, tgt, false, cing, stp⟩ evs) = true :=
  ⟨noUpdateBeforeConnect_trace evs _ rfl, (doubleConnect_trace evs _).1 rfl⟩

/-! ## C1: the acquisition loop -/

theorem runMon_append : ∀ (xs ys : List LockEv) (sa la : Bool),
    runMon sa la (xs ++ ys) =
      (runMon sa la xs).bind (fun p => runMon p.1 p.2 ys) := by
  intro xs
  induction xs with
  | nil => intro ys sa la; rfl
  | cons e rest ih =>
    intro ys sa la
    cases e with
    | trySlot r => simpa [runMon] using ih ys r la
    | tryLock r => simpa [runMon] using ih ys sa r
    | connectCall =>
      by_cases h : (sa && la) = true
      · simp [runMon, h, ih]
      · simp [runMon, h]
    | releaseSlot =>
      by_cases h : sa = true
      · simp [runMon, h, ih]
      · simp [runMon, h]
    | unlockLock =>
      by_cases h : la = true
      · simp [runMon, h, ih]
      · simp [runMon, h]

/-- The loop's event trace respects the slot/lock discipline, and the
monitor's replayed held-flags agree with the loop's own. -/
theorem loopRun_mon : ∀ (ins : List IterIn) (sa la : Bool),
    runMon sa la (loopRun ins sa la).events =
      some ((loopRun ins sa la).slotAcq, (loopRun ins sa la).lockAcq) := by
  intro ins
  induction ins with
  | nil => intro sa la; rfl
  | cons it rest ih =>
    intro sa la
    obtain ⟨st, slt, lkt⟩ := it
    cases st with
    | true => simp [loopRun, runMon]
    | false =>
      cases sa <;> cases la <;> cases slt <;> cases lkt <;>
        simp [loopRun, runMon_append, runMon, ih]

/-- The loop exits exactly when some observed iteration reads
`stopped` as true. -/
theorem loopRun_exited : ∀ (ins : List IterIn) (sa la : Bool),
    (loopRun ins sa la).exited = ins.any (fun it => it.stopped) := by
  intro ins
  induction ins with
  | nil => intro sa la; rfl
  | cons it rest ih =>
    intro sa la
    obtain ⟨st, slt, lkt⟩ := it
    cases st with
    | true => simp [loopRun]
    | false =>
      cases sa <;> cases la <;> cases slt <;> cases lkt <;> simp [loopRun, ih]

/-- The final slot flag is recorded in the trace: starting unheld, the
slot ends held iff some `TryAcquire` returned true. -/
theorem loopRun_slot_mem : ∀ (ins : List IterIn) (sa la : Bool),
    ((loopRun ins sa la).slotAcq = true ↔
      sa = true ∨ LockEv.trySlot true ∈ (loopRun ins sa la).events) := by
  intro ins
  induction ins with
  | nil => intro sa la; simp [loopRun]
  | cons it rest ih =>
    intro sa la
    obtain ⟨st, slt, lkt⟩ := it
    cases st with
    | true => simp [loopRun]
    | false =>
      cases sa <;> cases la <;> cases slt <;> cases lkt <;>
        simp [loopRun, ih]

/-- The final lock flag is recorded in the trace: starting unheld, the
lock ends held iff some `lock.Try` returned true. -/
theorem loopRun_lock_mem : ∀ (ins : List IterIn) (sa la : Bool),
    ((loopRun ins sa la).lockAcq = true ↔
      la = true ∨ LockEv.tryLock true ∈ (loopRun ins sa la).events) := by
  intro ins
  induction ins with
  | nil => intro sa la; simp [loopRun]
  | cons it rest ih =>
    intro sa la
    obtain ⟨st, slt, lkt⟩ := it
    cases st with
    | true => simp [loopRun]
    | false =>
      cases sa <;> cases la <;> cases slt <;> cases lkt <;>
        simp [loopRun, ih]

/-- The loop body itself never releases: release and unlock events can
only come from the epilogue of `connectWithLock`. -/
theorem loopRun_no_release : ∀ (ins : List IterIn) (sa la : Bool),
    LockEv.releaseSlot ∉ (loopRun ins sa la).events ∧
    LockEv.unlockLock ∉ (loopRun ins sa la).events := by
  intro ins
  induction ins with
  | nil => intro sa la; simp [loopRun]
  | cons it rest ih =>
    intro sa la
    obtain ⟨st, slt, lkt⟩ := it
    cases st with
    | true => simp [loopRun]
    | false =>
      cases sa <;> cases la <;> cases slt <;> cases lkt <;>
        simp [loopRun, ih]

/-- C1: over every finite schedule of loop iterations, `connect()` is
invoked only while both the slot and the lock are held (the monitor
accepts the trace); the loop exits exactly when an iteration observes
`stopped`; and after exit the slot is released iff it was acquired and
the lock is unlocked iff it was acquired — never before exit. -/
theorem connectWithLock_discipline (ins : List IterIn) :
    (runMon false false (connectWithLock ins).1).isSome = true ∧
    ((connectWithLock ins).2 = ins.any (fun it => it.stopped)) ∧
    (LockEv.releaseSlot ∈ (connectWithLock ins).1 ↔
      (connectWithLock ins).2 = true ∧ LockEv.trySlot true ∈ (connectWithLock ins).1) ∧
    (LockEv.unlockLock ∈ (connectWithLock ins).1 ↔
      (connectWithLock ins).2 = true ∧ LockEv.tryLock true ∈ (connectWithLock ins).1) := by
  have hmon := loopRun_mon ins false false
  have hex := loopRun_exited ins false false
  have hsl := loopRun_slot_mem ins false false
  have hlk := loopRun_lock_mem ins false false
  have hnr := loopRun_no_release ins false false
  rcases hout : loopRun ins false false with ⟨evs, sa, la, ex⟩
  rw [hout] at hmon hex hsl hlk hnr
  simp only at hmon hex hsl hlk hnr
  simp only [Bool.false_eq_true, false_or] at hsl hlk
  refine ⟨?_, ?_, ?_, ?_⟩
  · simp only [connectWithLock, hout]
    cases ex with
    | false => simp [hmon]
    | true =>
      simp only [if_true]
      cases sa <;> cases la <;> simp [runMon_append, runMon, hmon]
  · simp only [connectWithLock, hout]
    cases ex <;> simp [← hex]
  · simp only [connectWithLock, hout]
    cases ex with
    | false => simp [hnr.1]
    | true =>
      cases hsa : sa with
      | true =>
        have hmem := hsl.mp hsa
        simp only [if_true, hsa]
        cases la <;> simp [hmem, hnr.1]
      | false =>
        simp only [if_true, hsa]
        have : LockEv.trySlot true ∉ evs := fun hm => by
          have := hsl.mpr hm
          rw [hsa] at this
          exact Bool.false_ne_true this
        cases la <;> simp [hnr.1, this]
  · simp only [connectWithLock, hout]
    cases ex with
    | false => simp [hnr.2]
    | true =>
      cases hla : la with
      | true =>
        have hmem := hlk.mp hla
        simp only [if_true, hla]
        cases sa <;> simp [hmem, hnr.2]
      | false =>
        simp only [if_true, hla]
        have : LockEv.tryLock true ∉ evs := fun hm => by
          have := hlk.mpr hm
          rw [hla] at this
          exact Bool.false_ne_true this
        cases sa <;> simp [hnr.2, this]

end GnmiGateway
